import Mathlib

/-!
Shallow embedding of src/planner.c of the timescaledb repository: the
planner hook that rewrites INSERT plans over hypertables (chunk dispatch
plus hypertable insert wrapping), the set_rel_pathlist hook that applies
the sort transform and the constraint-aware append optimization, and the
hook install / uninstall pair.

PostgreSQL host types (Plan, Path, RangeTblEntry, Query, GUCs) are
embedded with exactly the fields planner.c reads.  Constructors that live
in other files of the repository (chunk_dispatch_plan_create,
hypertable_insert_plan_create, constraint_aware_append_path_create, the
cache service, planned_stmt_walker, sort_transform_optimization) are
modelled from the spec where noted; planner.c itself is translated
line by line.
-/

namespace Timescale

/-- PostgreSQL object identifier, modelled as a natural number. -/
abbrev Oid := Nat

/-- The invalid OID constant (0 in PostgreSQL). -/
def InvalidOid : Oid := 0

/-- OidIsValid macro: an OID is valid when it is not InvalidOid. -/
def OidIsValid (oid : Oid) : Bool := oid != InvalidOid

/-- Hypertable catalog entry; planner.c only tests the pointer for NULL
and passes it through, so the entry carries just its table OID. -/
structure Hypertable where
  relid : Oid
deriving DecidableEq, Inhabited

/-- The hypertable cache content: a finite map from table OID to its
hypertable entry, embedded as an association list. -/
abbrev Cache := List (Oid × Hypertable)

/-- Modelled from the spec (hypertable_cache.c is not under src/): the
catalog lookup service, `lookup(handle, table_id) -> PartitionedTable |
not_found`; a missing entry means the table is not a hypertable. -/
def hypertable_cache_get_entry (hcache : Cache) (relid : Oid) : Option Hypertable :=
  (hcache.find? (fun e => e.1 == relid)).map Prod.snd

/-- The ON CONFLICT clause of a Query; planner.c reads only its
`constraint` OID (valid when the conflict target names a constraint). -/
structure OnConflictExpr where
  constraint : Oid
deriving DecidableEq, Inhabited

/-- The parsed statement; planner.c reads `onConflict` (in
modifytable_plan_walker) and `resultRelation` (in
timescaledb_set_rel_pathlist; 0 means the statement has no write
target). -/
structure Query where
  onConflict : Option OnConflictExpr
  resultRelation : Nat
deriving DecidableEq, Inhabited

/-- The relkind of a range table entry: RELKIND_RELATION or anything
else (planner.c only compares against RELKIND_RELATION). -/
inductive RelKindTag where
  | relation
  | otherKind
deriving DecidableEq, Inhabited

/-- Range table entry; planner.c reads `relid`, `inh` and `relkind`. -/
structure RangeTblEntry where
  relid : Oid
  inh : Bool
  relkind : RelKindTag
deriving DecidableEq, Inhabited

/-- The rt_fetch macro: 1-based lookup into the range table. -/
def rt_fetch (rti : Nat) (rtable : List RangeTblEntry) : RangeTblEntry :=
  rtable.getD (rti - 1) default

/-- PostgreSQL CmdType; planner.c compares against CMD_INSERT. -/
inductive CmdType where
  | select
  | update
  | insert
  | delete
  | utility
deriving DecidableEq, Inhabited

/-- PostgreSQL error code; the only code planner.c raises is
ERRCODE_FEATURE_NOT_SUPPORTED. -/
inductive SqlErrCode where
  | featureNotSupported
  | otherCode
deriving DecidableEq, Inhabited

/-- The payload of an ereport(ERROR, ...) call: error code, message and
hint.  Raising it aborts the statement (a longjmp in the host). -/
structure ErrorData where
  code : SqlErrCode
  message : String
  hint : String
deriving DecidableEq, Inhabited

/-- The error raised by modifytable_plan_walker for an ON CONFLICT
clause that references a named constraint (planner.c lines 125-128). -/
def on_conflict_constraint_error : ErrorData :=
  { code := SqlErrCode.featureNotSupported
  , message := "Hypertables do not support ON CONFLICT statements that reference constraints"
  , hint := "Use column names to infer indexes instead." }

/-- Plan tree node.  planner.c cares about ModifyTable nodes (operation,
subplan list, result relation list); chunkDispatch and hypertableInsert
are the nodes produced by the rewrite; `other` covers every remaining
node kind, with its child plan slots. -/
inductive Plan where
  | modifyTable (operation : CmdType) (plans : List Plan) (resultRelations : List Nat)
  | chunkDispatch (subplan : Plan) (rti : Nat) (relid : Oid) (parse : Query)
  | hypertableInsert (child : Plan)
  | other (children : List Plan)
deriving Inhabited

/-- Modelled from the spec (chunk_dispatch_plan.c is not under src/):
the Row Router constructor returns a node whose child is the original
subplan and which is configured with the result-relation index, the
target table identifier and the full statement. -/
def chunk_dispatch_plan_create (subplan : Plan) (rti : Nat) (relid : Oid) (parse : Query) : Plan :=
  Plan.chunkDispatch subplan rti relid parse

/-- Modelled from the spec (hypertable_insert.c is not under src/): the
Insert Wrapper constructor returns a node whose sole child is the
ModifyTable node it decorates. -/
def hypertable_insert_plan_create (mt : Plan) : Plan :=
  Plan.hypertableInsert mt

/-- ModifyTableWalkerCtx from planner.c: the parsed statement, the
pinned hypertable cache and the range table of the planned statement. -/
structure ModifyTableWalkerCtx where
  parse : Query
  hcache : Cache
  rtable : List RangeTblEntry
deriving DecidableEq

/-- The test at planner.c lines 123-124: the statement has an ON
CONFLICT clause whose conflict target is a named constraint. -/
def onconflict_names_constraint (q : Query) : Bool :=
  match q.onConflict with
  | some oc => oc.constraint != InvalidOid
  | none => false

/-- Whether a (subplan, result relation index) pair resolves to a
hypertable through the pinned cache (planner.c lines 114-118). -/
def pair_is_hypertable (ctx : ModifyTableWalkerCtx) (pr : Plan × Nat) : Bool :=
  (hypertable_cache_get_entry ctx.hcache (rt_fetch pr.2 ctx.rtable).relid).isSome

/-- The rewrite of one (subplan, result relation index) pair on the
non-error path (planner.c line 134): a hypertable pair is replaced by a
chunk dispatch node over the original subplan, any other pair is kept. -/
def rewrite_pair (ctx : ModifyTableWalkerCtx) (pr : Plan × Nat) : Plan :=
  let rte := rt_fetch pr.2 ctx.rtable
  match hypertable_cache_get_entry ctx.hcache rte.relid with
  | some _ => chunk_dispatch_plan_create pr.1 pr.2 rte.relid ctx.parse
  | none => pr.1

/-- The forboth loop of modifytable_plan_walker (planner.c lines
112-137), walking the zipped (subplan, result relation index) pairs in
order.  Returns the subplan list as left in memory, the
hypertable_found flag, and the raised error if any.  The in-place
mutation discipline of the C code is kept: when the named-constraint ON
CONFLICT error is raised at a pair, that pair and every later pair keep
their original subplans, while any error aborts before the
hypertable_found flag can matter. -/
def mt_pairs_loop (ctx : ModifyTableWalkerCtx) :
    List (Plan × Nat) → List Plan × Bool × Option ErrorData
  | [] => ([], false, none)
  | pr :: rest =>
      let rte := rt_fetch pr.2 ctx.rtable
      match hypertable_cache_get_entry ctx.hcache rte.relid with
      | some _ =>
          if onconflict_names_constraint ctx.parse then
            (pr.1 :: rest.map Prod.fst, false, some on_conflict_constraint_error)
          else
            let r := mt_pairs_loop ctx rest
            (chunk_dispatch_plan_create pr.1 pr.2 rte.relid ctx.parse :: r.1, true, r.2.2)
      | none =>
          let r := mt_pairs_loop ctx rest
          (pr.1 :: r.1, r.2.1, r.2.2)

/-- modifytable_plan_walker (planner.c lines 91-143): on a ModifyTable
node performing an INSERT, walk the aligned (subplan, resultRelation)
pairs, splice a chunk dispatch node over every hypertable pair, and if
any pair was rewritten wrap the ModifyTable in a hypertable insert
node.  Returns the plan as left in the slot plus the raised error, if
any (an error skips the wrapping, as the C ereport longjmps out). -/
def modifytable_plan_walker (ctx : ModifyTableWalkerCtx) (plan : Plan) :
    Plan × Option ErrorData :=
  match plan with
  | Plan.modifyTable op plans resultRelations =>
      if op = CmdType.insert then
        let pairs := plans.zip resultRelations
        let r := mt_pairs_loop ctx pairs
        let plans2 := r.1 ++ plans.drop pairs.length
        match r.2.2 with
        | some e => (Plan.modifyTable op plans2 resultRelations, some e)
        | none =>
            if r.2.1 then
              (hypertable_insert_plan_create (Plan.modifyTable op plans2 resultRelations), none)
            else
              (Plan.modifyTable op plans2 resultRelations, none)
      else
        (plan, none)
  | _ => (plan, none)

mutual

/-- Modelled from the spec (planned_stmt_walker lives in
planner_utils.c, not under src/): the generic plan tree walk that
applies the rewrite callback at every plan node slot, does not recurse
into a rewritten subtree (operators are rewritten in place only at
their original position), and stops at the first raised error, leaving
the remaining slots as they were.  The walk returns the tree as left in
memory plus the raised error, if any. -/
def plan_walk (f : Plan → Plan × Option ErrorData) : Plan → Plan × Option ErrorData
  | Plan.other children =>
      let r := plan_walk_list f children
      (Plan.other r.1, r.2)
  | p => f p

/-- Child slots are walked left to right; an error raised in one child
leaves the later siblings untouched. -/
def plan_walk_list (f : Plan → Plan × Option ErrorData) :
    List Plan → List Plan × Option ErrorData
  | [] => ([], none)
  | c :: cs =>
      match plan_walk f c with
      | (c2, some e) => (c2 :: cs, some e)
      | (c2, none) =>
          let r := plan_walk_list f cs
          (c2 :: r.1, r.2)

end

/-- One event on the statement-scoped hypertable cache handle. -/
inductive CacheEvent where
  | pin
  | release
deriving DecidableEq, Inhabited

/-- The planned statement as far as planner.c reads it: the top plan
tree and the range table. -/
structure PlannedStmt where
  planTree : Plan
  rtable : List RangeTblEntry
deriving Inhabited

/-- timescaledb_planner (planner.c lines 146-175).  The baseline
statement `plan_stmt` stands for the result of the chained previous
hook or of standard_planner (both external to the repository).  When
the extension is loaded, the hook pins the hypertable cache, walks the
plan tree with modifytable_plan_walker, and releases the cache; an
error raised inside the walk longjmps out of the function, so the
release on that path does not run here.  The returned triple is the
statement as left in memory, the trace of cache pin / release events
performed by this function, and the raised error, if any. -/
def timescaledb_planner (extension_loaded : Bool) (hcache : Cache)
    (parse : Query) (plan_stmt : PlannedStmt) :
    PlannedStmt × List CacheEvent × Option ErrorData :=
  if extension_loaded then
    let ctx : ModifyTableWalkerCtx :=
      { parse := parse, hcache := hcache, rtable := plan_stmt.rtable }
    match plan_walk (modifytable_plan_walker ctx) plan_stmt.planTree with
    | (tree2, some e) =>
        ({ plan_stmt with planTree := tree2 }, [CacheEvent.pin], some e)
    | (tree2, none) =>
        ({ plan_stmt with planTree := tree2 },
         [CacheEvent.pin, CacheEvent.release], none)
  else
    (plan_stmt, [], none)

/-- Modelled from the spec (the cache service in cache.c /
hypertable_cache.c is not under src/): the scoped acquire / release
discipline guarantees release on every exit path including errors, so
when a statement aborts, every handle still pinned is released exactly
once by the abort cleanup. -/
def abort_release_events (evs : List CacheEvent) : List CacheEvent :=
  List.replicate (evs.count CacheEvent.pin - evs.count CacheEvent.release)
    CacheEvent.release

/-- The full trace of cache events for one statement planned with the
extension loaded: the events performed by timescaledb_planner itself,
followed, when the statement aborted with an error, by the events of
the abort cleanup of the scoped discipline. -/
def statement_cache_events (hcache : Cache) (parse : Query)
    (plan_stmt : PlannedStmt) : List CacheEvent :=
  match timescaledb_planner true hcache parse plan_stmt with
  | (_, evs, some _) => evs ++ abort_release_events evs
  | (_, evs, none) => evs

/-- The constraint_exclusion GUC of the host engine (off / on /
partition); planner.c only compares it against CONSTRAINT_EXCLUSION_OFF. -/
inductive ConstraintExclusion where
  | off
  | on
  | partition
deriving DecidableEq, Inhabited

/-- The configuration flags planner.c reads: the three extension GUCs
(guc.c is external flag plumbing) and the engine-level
constraint_exclusion setting. -/
structure Gucs where
  guc_disable_optimizations : Bool
  guc_optimize_non_hypertables : Bool
  guc_constraint_aware_append : Bool
  constraint_exclusion : ConstraintExclusion
deriving DecidableEq, Inhabited

/-- A restriction clause; contain_mutable_functions of the host engine
is consumed as an oracle, so the clause carries its verdict. -/
structure Clause where
  has_mutable_function : Bool
deriving DecidableEq, Inhabited

/-- The host oracle contain_mutable_functions applied to a clause. -/
def contain_mutable_functions (c : Clause) : Bool :=
  c.has_mutable_function

/-- RestrictInfo; planner.c reads its clause. -/
structure RestrictInfo where
  clause : Clause
deriving DecidableEq, Inhabited

/-- Node tag of a path, as read by the switch in
timescaledb_set_rel_pathlist; T_AppendPath and T_MergeAppendPath are
the union-style collection paths, every other tag takes the default
branch. -/
inductive PathTag where
  | appendPath
  | mergeAppendPath
  | otherTag
deriving DecidableEq, Inhabited

/-- A path in a relation path list: either a host-produced path with
its node tag, or the constraint-aware append decorator produced by the
rewrite (a custom path, so its node tag is neither T_AppendPath nor
T_MergeAppendPath). -/
inductive Path where
  | base (tag : PathTag)
  | constraintAwareAppend (child : Path)
deriving DecidableEq, Inhabited

/-- nodeTag of a path. -/
def path_node_tag : Path → PathTag
  | Path.base tag => tag
  | Path.constraintAwareAppend _ => PathTag.otherTag

/-- Modelled from the spec (constraint_aware_append.c is not under
src/): the runtime-exclusion decorator wraps the given collection path;
planner.c passes the root and the hypertable through unchanged. -/
def constraint_aware_append_path_create (ht : Hypertable) (path : Path) : Path :=
  Path.constraintAwareAppend path

/-- RELOPT_BASEREL versus RELOPT_OTHER_MEMBER_REL versus the remaining
reloptkind values of RelOptInfo. -/
inductive RelOptKind where
  | baserel
  | otherMemberRel
  | otherRelOptKind
deriving DecidableEq, Inhabited

/-- RTE_RELATION versus the remaining rtekind values. -/
inductive RteKind where
  | relation
  | otherRte
deriving DecidableEq, Inhabited

/-- RelOptInfo as read by planner.c: reloptkind, rtekind, the dummy
marker tested by IS_DUMMY_REL, the base restriction clauses and the
path list. -/
structure RelOptInfo where
  reloptkind : RelOptKind
  rtekind : RteKind
  is_dummy : Bool
  baserestrictinfo : List RestrictInfo
  pathlist : List Path
deriving DecidableEq, Inhabited

/-- AppendRelInfo as read by planner.c: the OID of the parent relation
and the index of the child relation in simple_rel_array. -/
structure AppendRelInfo where
  parent_reloid : Oid
  child_relid : Nat
deriving DecidableEq, Inhabited

/-- PlannerInfo as read by planner.c: the parsed statement, the append
relation list and the simple_rel_array the sibling lookup indexes
into. -/
structure PlannerInfo where
  parse : Query
  append_rel_list : List AppendRelInfo
  simple_rel_array : List RelOptInfo
deriving Inhabited

/-- should_optimize_query (planner.c lines 178-183). -/
def should_optimize_query (g : Gucs) (ht : Option Hypertable) : Bool :=
  !g.guc_disable_optimizations &&
    (g.guc_optimize_non_hypertables || ht.isSome)

/-- should_optimize_append (planner.c lines 188-210); `rel` stands for
path->parent, the relation owning the path. -/
def should_optimize_append (g : Gucs) (path : Path) (rel : RelOptInfo) : Bool :=
  if !g.guc_constraint_aware_append ||
      g.constraint_exclusion = ConstraintExclusion.off then
    false
  else
    rel.baserestrictinfo.any fun rinfo => contain_mutable_functions rinfo.clause

/-- is_append_child (planner.c lines 213-220). -/
def is_append_child (rel : RelOptInfo) (rte : RangeTblEntry) : Bool :=
  rel.reloptkind = RelOptKind.otherMemberRel &&
    rte.inh = false &&
    rel.rtekind = RteKind.relation &&
    rte.relkind = RelKindTag.relation

/-- is_append_parent (planner.c lines 222-229). -/
def is_append_parent (rel : RelOptInfo) (rte : RangeTblEntry) : Bool :=
  rel.reloptkind = RelOptKind.baserel &&
    rte.inh = true &&
    rel.rtekind = RteKind.relation &&
    rte.relkind = RelKindTag.relation

/-- Observable outcome of one call of timescaledb_set_rel_pathlist:
the simple_rel_array indices of the relations
sort_transform_optimization (external, sort_transform.c) was applied
to, the visited relation path list as left in memory, and the cache
pin / release events performed. -/
structure SetRelPathlistResult where
  sort_transform_applied : List Nat
  new_pathlist : List Path
  cache_events : List CacheEvent
deriving DecidableEq, Inhabited

/-- The pathlist rewrite loop of timescaledb_set_rel_pathlist
(planner.c lines 303-319): Append and MergeAppend paths passing
should_optimize_append are replaced by the constraint-aware append
decorator, every other slot falls through the switch unchanged. -/
def rewrite_pathlist (g : Gucs) (ht : Hypertable) (rel : RelOptInfo) : List Path :=
  rel.pathlist.map fun path =>
    match path_node_tag path with
    | PathTag.appendPath =>
        if should_optimize_append g path rel then
          constraint_aware_append_path_create ht path
        else path
    | PathTag.mergeAppendPath =>
        if should_optimize_append g path rel then
          constraint_aware_append_path_create ht path
        else path
    | PathTag.otherTag => path

/-- timescaledb_set_rel_pathlist (planner.c lines 232-324).  `rti` is
the range table index of the visited relation, which is also its index
in simple_rel_array; the previous hook, when registered, is chained
before any of this runs and is external to the repository.  Returns
the sort-transform applications, the visited path list as left in
memory and the cache events, in program order. -/
def timescaledb_set_rel_pathlist (g : Gucs) (extension_loaded : Bool)
    (hcache : Cache) (root : PlannerInfo) (rel : RelOptInfo) (rti : Nat)
    (rte : RangeTblEntry) : SetRelPathlistResult :=
  if !extension_loaded || rel.is_dummy || !OidIsValid rte.relid then
    { sort_transform_applied := [], new_pathlist := rel.pathlist, cache_events := [] }
  else if !g.guc_optimize_non_hypertables &&
      !(is_append_parent rel rte || is_append_child rel rte) then
    { sort_transform_applied := [], new_pathlist := rel.pathlist, cache_events := [] }
  else
    let ht := hypertable_cache_get_entry hcache rte.relid
    if !should_optimize_query g ht then
      { sort_transform_applied := []
      , new_pathlist := rel.pathlist
      , cache_events := [CacheEvent.pin, CacheEvent.release] }
    else
      let sorted : List Nat :=
        if g.guc_optimize_non_hypertables then
          [rti]
        else if ht.isSome && is_append_child rel rte then
          (root.append_rel_list.filter fun appinfo =>
              appinfo.parent_reloid == rte.relid).map
            fun appinfo => appinfo.child_relid
        else
          []
      let newpl : List Path :=
        match ht with
        | some h =>
            if is_append_parent rel rte && root.parse.resultRelation == 0 then
              rewrite_pathlist g h rel
            else rel.pathlist
        | none => rel.pathlist
      { sort_transform_applied := sorted
      , new_pathlist := newpl
      , cache_events := [CacheEvent.pin, CacheEvent.release] }

/-- A value held by one of the two process-wide hook variables: the
implementation installed by this extension, or any external hook
identified by a number (NULL is `Option.none` at the use sites). -/
inductive HookImpl where
  | timescale
  | external (id : Nat)
deriving DecidableEq, Inhabited

/-- The process-wide mutable state touched by _planner_init and
_planner_fini: the two host hook variables and the two static
previous-hook variables of planner.c. -/
structure PlannerHookState where
  planner_hook : Option HookImpl
  set_rel_pathlist_hook : Option HookImpl
  prev_planner_hook : Option HookImpl
  prev_set_rel_pathlist_hook : Option HookImpl
deriving DecidableEq, Inhabited

/-- _planner_init (planner.c lines 326-333): save both hook variables
into the previous-hook statics and install the two implementations. -/
def _planner_init (s : PlannerHookState) : PlannerHookState :=
  { planner_hook := some HookImpl.timescale
  , set_rel_pathlist_hook := some HookImpl.timescale
  , prev_planner_hook := s.planner_hook
  , prev_set_rel_pathlist_hook := s.set_rel_pathlist_hook }

/-- _planner_fini (planner.c lines 335-340): restore both hook
variables from the previous-hook statics. -/
def _planner_fini (s : PlannerHookState) : PlannerHookState :=
  { s with
      planner_hook := s.prev_planner_hook
      set_rel_pathlist_hook := s.prev_set_rel_pathlist_hook }

/-! Helper lemmas shared by the claim theorems. -/

/-- Taking the first components of a zip and appending the tail of the
left list past the zipped length restores the left list. -/
theorem map_fst_zip_append_drop (l : List Plan) (r : List Nat) :
    (l.zip r).map Prod.fst ++ l.drop (min l.length r.length) = l := by
  induction l generalizing r with
  | nil => simp
  | cons x xs ih =>
      cases r with
      | nil => simp
      | cons y ys => simpa [Nat.succ_min_succ] using ih ys

/-- On the non-error path (no named-constraint ON CONFLICT clause), the
pair loop rewrites exactly the hypertable pairs, reports whether any
pair was a hypertable pair, and raises no error. -/
theorem mt_pairs_loop_no_conflict (ctx : ModifyTableWalkerCtx)
    (hnc : onconflict_names_constraint ctx.parse = false)
    (pairs : List (Plan × Nat)) :
    mt_pairs_loop ctx pairs =
      (pairs.map (rewrite_pair ctx), pairs.any (pair_is_hypertable ctx), none) := by
  induction pairs with
  | nil => simp [mt_pairs_loop]
  | cons pr rest ih =>
      unfold mt_pairs_loop
      cases hget : hypertable_cache_get_entry ctx.hcache (rt_fetch pr.2 ctx.rtable).relid with
      | some h =>
          simp [hnc, ih, rewrite_pair, pair_is_hypertable, hget]
      | none =>
          simp [ih, rewrite_pair, pair_is_hypertable, hget]

/-- With a named-constraint ON CONFLICT clause, the pair loop leaves
every subplan slot unchanged, never sets hypertable_found, and raises
the feature-not-supported error exactly when some pair resolves to a
hypertable. -/
theorem mt_pairs_loop_conflict (ctx : ModifyTableWalkerCtx)
    (hnc : onconflict_names_constraint ctx.parse = true)
    (pairs : List (Plan × Nat)) :
    mt_pairs_loop ctx pairs =
      (pairs.map Prod.fst, false,
        if pairs.any (pair_is_hypertable ctx) then
          some on_conflict_constraint_error
        else none) := by
  induction pairs with
  | nil => simp [mt_pairs_loop]
  | cons pr rest ih =>
      unfold mt_pairs_loop
      cases hget : hypertable_cache_get_entry ctx.hcache (rt_fetch pr.2 ctx.rtable).relid with
      | some h =>
          simp [hnc, pair_is_hypertable, hget]
      | none =>
          simp only [hget, pair_is_hypertable, List.any_cons, Option.isSome_none,
            Bool.false_or]
          simp [ih, pair_is_hypertable]

/-- When every catalog lookup through the pinned cache misses, the pair
loop leaves every slot unchanged, never sets hypertable_found and never
raises an error, regardless of the ON CONFLICT clause. -/
theorem mt_pairs_loop_all_none (ctx : ModifyTableWalkerCtx)
    (hno : ∀ oid, hypertable_cache_get_entry ctx.hcache oid = none)
    (pairs : List (Plan × Nat)) :
    mt_pairs_loop ctx pairs = (pairs.map Prod.fst, false, none) := by
  induction pairs with
  | nil => simp [mt_pairs_loop]
  | cons pr rest ih =>
      unfold mt_pairs_loop
      simp [hno, ih]

/-- When every catalog lookup through the pinned cache misses, the
walker callback is the identity on every plan node. -/
theorem modifytable_plan_walker_all_none (ctx : ModifyTableWalkerCtx)
    (hno : ∀ oid, hypertable_cache_get_entry ctx.hcache oid = none)
    (plan : Plan) : modifytable_plan_walker ctx plan = (plan, none) := by
  cases plan with
  | modifyTable op plans rrs =>
      unfold modifytable_plan_walker
      by_cases hop : op = CmdType.insert
      · simp [hop, mt_pairs_loop_all_none ctx hno, map_fst_zip_append_drop]
      · simp [hop]
  | chunkDispatch s r o q => rfl
  | hypertableInsert c => rfl
  | other cs => rfl

mutual

/-- A callback that leaves every node unchanged and raises no error
makes the whole tree walk the identity. -/
theorem plan_walk_id (f : Plan → Plan × Option ErrorData)
    (hf : ∀ p, f p = (p, none)) : ∀ p, plan_walk f p = (p, none)
  | Plan.other children => by
      simp [plan_walk, plan_walk_list_id f hf children]
  | Plan.modifyTable op plans rrs => by
      simp [plan_walk, hf]
  | Plan.chunkDispatch s r o q => by
      simp [plan_walk, hf]
  | Plan.hypertableInsert c => by
      simp [plan_walk, hf]

/-- List form of plan_walk_id. -/
theorem plan_walk_list_id (f : Plan → Plan × Option ErrorData)
    (hf : ∀ p, f p = (p, none)) : ∀ ps, plan_walk_list f ps = (ps, none)
  | [] => by simp [plan_walk_list]
  | c :: cs => by
      simp [plan_walk_list, plan_walk_id f hf c, plan_walk_list_id f hf cs]

end

/-! Claim theorems. -/

/-- C1: for every statement processed by timescaledb_planner with the
extension loaded, the hypertable cache handle pinned at entry is
released exactly once over the full statement, on the normal path and
on paths that abort with an error raised during plan-tree rewriting;
the handle is never leaked and never double-released. -/
theorem claim_C1_cache_pin_released_exactly_once (hcache : Cache)
    (parse : Query) (plan_stmt : PlannedStmt) :
    (statement_cache_events hcache parse plan_stmt).count CacheEvent.pin = 1 ∧
    (statement_cache_events hcache parse plan_stmt).count CacheEvent.release = 1 := by
  unfold statement_cache_events timescaledb_planner
  cases hwalk : plan_walk
      (modifytable_plan_walker
        { parse := parse, hcache := hcache, rtable := plan_stmt.rtable })
      plan_stmt.planTree with
  | mk tree2 err =>
      cases err with
      | some e => simp [hwalk, abort_release_events]
      | none => simp [hwalk]

/-- C6: for an insert statement all of whose result relations resolve
to non-hypertables (every catalog lookup misses), the planner hook with
the extension loaded returns the baseline statement unchanged: no chunk
dispatch node is spliced in and no hypertable insert wrapper is added,
and the cache is pinned and released once. -/
theorem claim_C6_non_hypertable_insert_passthrough (hcache : Cache)
    (parse : Query) (plan_stmt : PlannedStmt)
    (hno : ∀ oid, hypertable_cache_get_entry hcache oid = none) :
    timescaledb_planner true hcache parse plan_stmt =
      (plan_stmt, [CacheEvent.pin, CacheEvent.release], none) := by
  unfold timescaledb_planner
  have hwalk := plan_walk_id
    (modifytable_plan_walker
      { parse := parse, hcache := hcache, rtable := plan_stmt.rtable })
    (modifytable_plan_walker_all_none _ hno) plan_stmt.planTree
  simp [hwalk]

/-- Witness for C6 at a concrete input: an INSERT ModifyTable over an
empty hypertable cache is passed through untouched. -/
theorem claim_C6_witness :
    timescaledb_planner true []
      { onConflict := none, resultRelation := 1 }
      { planTree := Plan.modifyTable CmdType.insert [Plan.other []] [1]
      , rtable := [{ relid := 7, inh := false, relkind := RelKindTag.relation }] } =
      ({ planTree := Plan.modifyTable CmdType.insert [Plan.other []] [1]
       , rtable := [{ relid := 7, inh := false, relkind := RelKindTag.relation }] },
       [CacheEvent.pin, CacheEvent.release], none) :=
  claim_C6_non_hypertable_insert_passthrough [] _ _ (fun _ => rfl)

/-- C8: when the extension is not loaded, timescaledb_planner returns
exactly the baseline statement produced by the chained previous hook or
the standard planner, without pinning the cache or walking the tree,
and timescaledb_set_rel_pathlist returns without touching the relation
path list, applying no transform and touching no cache. -/
theorem claim_C8_extension_not_loaded_noop (hcache : Cache) (parse : Query)
    (plan_stmt : PlannedStmt) (g : Gucs) (root : PlannerInfo)
    (rel : RelOptInfo) (rti : Nat) (rte : RangeTblEntry) :
    timescaledb_planner false hcache parse plan_stmt = (plan_stmt, [], none) ∧
    timescaledb_set_rel_pathlist g false hcache root rel rti rte =
      { sort_transform_applied := []
      , new_pathlist := rel.pathlist
      , cache_events := [] } := by
  constructor
  · rfl
  · rfl

/-- C9: installing the hooks with _planner_init and uninstalling them
with _planner_fini restores both process-wide hook variables exactly to
their values from before _planner_init, for any prior values. -/
theorem claim_C9_init_fini_round_trip (s : PlannerHookState) :
    (_planner_fini (_planner_init s)).planner_hook = s.planner_hook ∧
    (_planner_fini (_planner_init s)).set_rel_pathlist_hook =
      s.set_rel_pathlist_hook := by
  constructor
  · rfl
  · rfl

/-- C10: the plan-tree walker callback leaves a ModifyTable node whose
operation is not INSERT, together with all of its subplan slots,
completely unchanged and raises no error, for any cache content
(including one where the result relations name hypertables). -/
theorem claim_C10_non_insert_modifytable_untouched
    (ctx : ModifyTableWalkerCtx) (op : CmdType) (plans : List Plan)
    (rrs : List Nat) (hop : op ≠ CmdType.insert) :
    modifytable_plan_walker ctx (Plan.modifyTable op plans rrs) =
      (Plan.modifyTable op plans rrs, none) := by
  simp [modifytable_plan_walker, hop]

/-- Witness for C10 at a concrete input: an UPDATE ModifyTable whose
result relation is a cached hypertable is left untouched. -/
theorem claim_C10_witness :
    modifytable_plan_walker
      { parse := { onConflict := none, resultRelation := 1 }
      , hcache := [(7, { relid := 7 })]
      , rtable := [{ relid := 7, inh := false, relkind := RelKindTag.relation }] }
      (Plan.modifyTable CmdType.update [Plan.other []] [1]) =
      (Plan.modifyTable CmdType.update [Plan.other []] [1], none) :=
  claim_C10_non_insert_modifytable_untouched _ CmdType.update _ _ (by decide)

/-- C2: an INSERT ModifyTable with at least one hypertable pair and an
ON CONFLICT clause naming a constraint fails immediately with the
feature-not-supported error carrying the column-inference hint, and no
subplan slot of the node is rewritten before the error is raised: the
node is left exactly as it was. -/
theorem claim_C2_on_conflict_constraint_rejected (parse : Query)
    (hcache : Cache) (rtable : List RangeTblEntry) (plans : List Plan)
    (rrs : List Nat)
    (hnc : onconflict_names_constraint parse = true)
    (hht : (plans.zip rrs).any
      (pair_is_hypertable { parse := parse, hcache := hcache, rtable := rtable }) = true) :
    modifytable_plan_walker { parse := parse, hcache := hcache, rtable := rtable }
        (Plan.modifyTable CmdType.insert plans rrs) =
      (Plan.modifyTable CmdType.insert plans rrs,
        some on_conflict_constraint_error) ∧
    on_conflict_constraint_error.code = SqlErrCode.featureNotSupported ∧
    on_conflict_constraint_error.hint = "Use column names to infer indexes instead." := by
  refine ⟨?_, rfl, rfl⟩
  have hloop := mt_pairs_loop_conflict
    { parse := parse, hcache := hcache, rtable := rtable } hnc (plans.zip rrs)
  simp [modifytable_plan_walker, hloop, hht, map_fst_zip_append_drop]

/-- Witness for C2 at a concrete input: inserting into a cached
hypertable with ON CONFLICT ON CONSTRAINT raises the error and leaves
the node untouched. -/
theorem claim_C2_witness :
    modifytable_plan_walker
      { parse := { onConflict := some { constraint := 5 }, resultRelation := 1 }
      , hcache := [(7, { relid := 7 })]
      , rtable := [{ relid := 7, inh := false, relkind := RelKindTag.relation }] }
      (Plan.modifyTable CmdType.insert [Plan.other []] [1]) =
      (Plan.modifyTable CmdType.insert [Plan.other []] [1],
        some on_conflict_constraint_error) :=
  (claim_C2_on_conflict_constraint_rejected _ _ _ _ _ (by decide) (by decide)).1

/-- C5: on an INSERT ModifyTable with no named-constraint ON CONFLICT
clause, every positionally aligned (subplan, result relation) pair
whose relation resolves to a hypertable has its slot replaced by a
chunk dispatch node whose child is the original subplan and which is
configured with the result-relation index, the target table OID and
the full statement; pairs that do not resolve stay unchanged; and the
ModifyTable node itself is wrapped in a hypertable insert node exactly
when at least one pair was rewritten. -/
theorem claim_C5_insert_rewrite_characterization (parse : Query)
    (hcache : Cache) (rtable : List RangeTblEntry) (plans : List Plan)
    (rrs : List Nat)
    (hnc : onconflict_names_constraint parse = false) :
    (∀ pr : Plan × Nat,
      pair_is_hypertable { parse := parse, hcache := hcache, rtable := rtable } pr = true →
        rewrite_pair { parse := parse, hcache := hcache, rtable := rtable } pr =
          chunk_dispatch_plan_create pr.1 pr.2 (rt_fetch pr.2 rtable).relid parse) ∧
    (∀ pr : Plan × Nat,
      pair_is_hypertable { parse := parse, hcache := hcache, rtable := rtable } pr = false →
        rewrite_pair { parse := parse, hcache := hcache, rtable := rtable } pr = pr.1) ∧
    modifytable_plan_walker { parse := parse, hcache := hcache, rtable := rtable }
        (Plan.modifyTable CmdType.insert plans rrs) =
      (let ctx : ModifyTableWalkerCtx :=
        { parse := parse, hcache := hcache, rtable := rtable }
       let plans2 := (plans.zip rrs).map (rewrite_pair ctx) ++
         plans.drop (min plans.length rrs.length)
       if (plans.zip rrs).any (pair_is_hypertable ctx) then
         (hypertable_insert_plan_create (Plan.modifyTable CmdType.insert plans2 rrs),
           none)
       else
         (Plan.modifyTable CmdType.insert plans2 rrs, none)) := by
  refine ⟨?_, ?_, ?_⟩
  · intro pr hpr
    cases hget : hypertable_cache_get_entry hcache (rt_fetch pr.2 rtable).relid with
    | some h => simp [rewrite_pair, hget]
    | none => simp [pair_is_hypertable, hget] at hpr
  · intro pr hpr
    cases hget : hypertable_cache_get_entry hcache (rt_fetch pr.2 rtable).relid with
    | some h => simp [pair_is_hypertable, hget] at hpr
    | none => simp [rewrite_pair, hget]
  · have hloop := mt_pairs_loop_no_conflict
      { parse := parse, hcache := hcache, rtable := rtable } hnc (plans.zip rrs)
    by_cases hany : (plans.zip rrs).any
        (pair_is_hypertable { parse := parse, hcache := hcache, rtable := rtable }) = true
    · simp [modifytable_plan_walker, hloop, hany]
    · simp only [Bool.not_eq_true] at hany
      simp [modifytable_plan_walker, hloop, hany]

/-- Witness for C5 at a concrete input: one hypertable pair is
replaced by a chunk dispatch node and the ModifyTable is wrapped. -/
theorem claim_C5_witness :
    modifytable_plan_walker
      { parse := { onConflict := none, resultRelation := 1 }
      , hcache := [(7, { relid := 7 })]
      , rtable := [{ relid := 7, inh := false, relkind := RelKindTag.relation }] }
      (Plan.modifyTable CmdType.insert [Plan.other []] [1]) =
      (Plan.hypertableInsert
        (Plan.modifyTable CmdType.insert
          [Plan.chunkDispatch (Plan.other []) 1 7
            { onConflict := none, resultRelation := 1 }] [1]),
        none) :=
  (claim_C5_insert_rewrite_characterization
    { onConflict := none, resultRelation := 1 }
    [(7, { relid := 7 })]
    [{ relid := 7, inh := false, relkind := RelKindTag.relation }]
    [Plan.other []] [1] (by decide)).2.2

/-- Unfolding of should_optimize_append into its three conditions: the
configuration flag, engine-level constraint exclusion not off, and a
mutable function in some base restriction clause. -/
theorem should_optimize_append_eq_true (g : Gucs) (path : Path)
    (rel : RelOptInfo) :
    should_optimize_append g path rel = true ↔
      (g.guc_constraint_aware_append = true ∧
       g.constraint_exclusion ≠ ConstraintExclusion.off ∧
       (rel.baserestrictinfo.any fun rinfo =>
         contain_mutable_functions rinfo.clause) = true) := by
  unfold should_optimize_append
  by_cases hcaa : g.guc_constraint_aware_append
  · by_cases hce : g.constraint_exclusion = ConstraintExclusion.off
    · simp [hcaa, hce]
    · simp [hcaa, hce]
  · simp [hcaa]

/-- Each slot of the pathlist rewrite loop is either unchanged, or is
an Append / MergeAppend path passing should_optimize_append that got
wrapped in the constraint-aware append decorator. -/
theorem rewrite_pathlist_pointwise (g : Gucs) (h : Hypertable)
    (rel : RelOptInfo) (i : Nat) :
    (rewrite_pathlist g h rel).getD i default = rel.pathlist.getD i default ∨
    ((path_node_tag (rel.pathlist.getD i default) = PathTag.appendPath ∨
      path_node_tag (rel.pathlist.getD i default) = PathTag.mergeAppendPath) ∧
     should_optimize_append g (rel.pathlist.getD i default) rel = true ∧
     (rewrite_pathlist g h rel).getD i default =
       constraint_aware_append_path_create h (rel.pathlist.getD i default)) := by
  unfold rewrite_pathlist
  rw [List.getD_eq_getElem?_getD, List.getD_eq_getElem?_getD, List.getElem?_map]
  cases hi : rel.pathlist[i]? with
  | none => left; rfl
  | some p =>
      simp only [Option.map_some', Option.getD_some]
      cases htag : path_node_tag p with
      | appendPath =>
          by_cases hopt : should_optimize_append g p rel
          · right
            refine ⟨Or.inl ?_, ?_, ?_⟩ <;>
              simp [List.getD_eq_getElem?_getD, hi, htag, hopt]
          · left
            simp only [Bool.not_eq_true] at hopt
            simp [htag, hopt]
      | mergeAppendPath =>
          by_cases hopt : should_optimize_append g p rel
          · right
            refine ⟨Or.inr ?_, ?_, ?_⟩ <;>
              simp [List.getD_eq_getElem?_getD, hi, htag, hopt]
          · left
            simp only [Bool.not_eq_true] at hopt
            simp [htag, hopt]
      | otherTag => left; simp [htag]

/-- The visited path list after timescaledb_set_rel_pathlist is either
exactly the one the hook received, or the relation is a hypertable
append parent in a statement without write target and the list went
through the pathlist rewrite loop. -/
theorem set_rel_pathlist_newpl_cases (g : Gucs) (loaded : Bool)
    (hcache : Cache) (root : PlannerInfo) (rel : RelOptInfo) (rti : Nat)
    (rte : RangeTblEntry) :
    (timescaledb_set_rel_pathlist g loaded hcache root rel rti rte).new_pathlist
      = rel.pathlist ∨
    (∃ h, hypertable_cache_get_entry hcache rte.relid = some h ∧
      is_append_parent rel rte = true ∧
      root.parse.resultRelation = 0 ∧
      (timescaledb_set_rel_pathlist g loaded hcache root rel rti rte).new_pathlist
        = rewrite_pathlist g h rel) := by
  unfold timescaledb_set_rel_pathlist
  by_cases h1 : !loaded || rel.is_dummy || !OidIsValid rte.relid
  · rw [if_pos h1]
    exact Or.inl rfl
  · rw [if_neg h1]
    by_cases h2 : !g.guc_optimize_non_hypertables &&
        !(is_append_parent rel rte || is_append_child rel rte)
    · rw [if_pos h2]
      exact Or.inl rfl
    · rw [if_neg h2]
      cases hht : hypertable_cache_get_entry hcache rte.relid with
      | none =>
          left
          simp only [hht]
          split
          · rfl
          · rfl
      | some h =>
          simp only [hht]
          by_cases h3 : should_optimize_query g (some h)
          · rw [if_neg (by simp [h3])]
            by_cases h4 : is_append_parent rel rte
            · by_cases h5 : root.parse.resultRelation = 0
              · right
                exact ⟨h, rfl, h4, h5, by simp [h4, h5]⟩
              · left
                simp [h4, h5]
            · left
              simp only [Bool.not_eq_true] at h4
              simp [h4]
          · rw [if_pos (by simp only [Bool.not_eq_true] at h3; simp [h3])]
            exact Or.inl rfl

/-- C3: a path of the visited relation is replaced by the
constraint-aware append decorator only if the configuration flag is
enabled, engine-level constraint exclusion is not off, some base
restriction clause contains a mutable function, the path tag is
T_AppendPath or T_MergeAppendPath, and the relation is a hypertable
acting as append parent; every other slot of the path list is left
unchanged, and the list keeps its length. -/
theorem claim_C3_runtime_exclusion_wrap_conditions (g : Gucs)
    (loaded : Bool) (hcache : Cache) (root : PlannerInfo)
    (rel : RelOptInfo) (rti : Nat) (rte : RangeTblEntry) (i : Nat) :
    (timescaledb_set_rel_pathlist g loaded hcache root rel rti rte).new_pathlist.length
      = rel.pathlist.length ∧
    ((timescaledb_set_rel_pathlist g loaded hcache root rel rti rte).new_pathlist.getD i default
        = rel.pathlist.getD i default ∨
      (g.guc_constraint_aware_append = true ∧
       g.constraint_exclusion ≠ ConstraintExclusion.off ∧
       (rel.baserestrictinfo.any fun rinfo =>
         contain_mutable_functions rinfo.clause) = true ∧
       (path_node_tag (rel.pathlist.getD i default) = PathTag.appendPath ∨
        path_node_tag (rel.pathlist.getD i default) = PathTag.mergeAppendPath) ∧
       (hypertable_cache_get_entry hcache rte.relid).isSome = true ∧
       is_append_parent rel rte = true ∧
       (timescaledb_set_rel_pathlist g loaded hcache root rel rti rte).new_pathlist.getD i default
         = constraint_aware_append_path_create
             ((hypertable_cache_get_entry hcache rte.relid).getD default)
             (rel.pathlist.getD i default))) := by
  rcases set_rel_pathlist_newpl_cases g loaded hcache root rel rti rte with
    heq | ⟨h, hht, hpar, hrr, heq⟩
  · rw [heq]
    exact ⟨rfl, Or.inl rfl⟩
  · constructor
    · rw [heq]
      unfold rewrite_pathlist
      exact List.length_map _ _
    · rcases rewrite_pathlist_pointwise g h rel i with hsame | ⟨htag, hopt, hwrap⟩
      · left
        rw [heq, hsame]
      · right
        rcases (should_optimize_append_eq_true g _ rel).mp hopt with ⟨hcaa, hce, hmut⟩
        refine ⟨hcaa, hce, hmut, htag, by simp [hht], hpar, ?_⟩
        rw [heq, hwrap, hht]
        rfl

/-- Example configuration for the C4 scenario: all optimizations
enabled, constraint exclusion on, optimization restricted to
hypertables. -/
def gC4 : Gucs :=
  { guc_disable_optimizations := false
  , guc_optimize_non_hypertables := false
  , guc_constraint_aware_append := true
  , constraint_exclusion := ConstraintExclusion.on }

/-- Example cache for the C4 scenario: table 42 is a hypertable. -/
def hcacheC4 : Cache := [(42, { relid := 42 })]

/-- Example range table entry for the C4 scenario: the inheritance
parent of hypertable 42. -/
def rteC4 : RangeTblEntry :=
  { relid := 42, inh := true, relkind := RelKindTag.relation }

/-- Example relation for the C4 scenario: a non-dummy append parent
with a mutable restriction clause and one Append path. -/
def relC4 : RelOptInfo :=
  { reloptkind := RelOptKind.baserel
  , rtekind := RteKind.relation
  , is_dummy := false
  , baserestrictinfo := [{ clause := { has_mutable_function := true } }]
  , pathlist := [Path.base PathTag.appendPath] }

/-- Example planner state for the C4 scenario: the statement writes to
range table index 2, a relation different from the one visited at
index 1. -/
def rootC4 : PlannerInfo :=
  { parse := { onConflict := none, resultRelation := 2 }
  , append_rel_list := []
  , simple_rel_array := [] }

/-- C4 counterexample: a relation that is the append parent of a
hypertable, is not itself the write target (the statement writes range
table index 2, the relation is visited at index 1), and satisfies every
wrap-enabling condition, still has its Append path left unwrapped,
because the code requires the statement to have no write target at all
(root->parse->resultRelation == 0), not merely that this relation is
not the target. -/
theorem claim_C4_counterexample :
    is_append_parent relC4 rteC4 = true ∧
    hypertable_cache_get_entry hcacheC4 rteC4.relid = some { relid := 42 } ∧
    rootC4.parse.resultRelation = 2 ∧
    should_optimize_append gC4 (Path.base PathTag.appendPath) relC4 = true ∧
    (timescaledb_set_rel_pathlist gC4 true hcacheC4 rootC4 relC4 1 rteC4).new_pathlist
      = [Path.base PathTag.appendPath] := by
  decide

/-- C4 as amended: exclusion wrapping is restricted to statements with
no write target at all.  Whenever the statement has a result relation,
even one different from the visited relation, the visited path list is
left unchanged; and when the statement has no write target, a
non-dummy hypertable append parent passing the optimization gate has
its path list processed by the wrap loop. -/
theorem claim_C4_wrap_requires_no_write_target (g : Gucs) (loaded : Bool)
    (hcache : Cache) (root : PlannerInfo) (rel : RelOptInfo) (rti : Nat)
    (rte : RangeTblEntry) :
    (root.parse.resultRelation ≠ 0 →
      (timescaledb_set_rel_pathlist g loaded hcache root rel rti rte).new_pathlist
        = rel.pathlist) ∧
    (∀ h : Hypertable,
      root.parse.resultRelation = 0 → loaded = true → rel.is_dummy = false →
      OidIsValid rte.relid = true → is_append_parent rel rte = true →
      hypertable_cache_get_entry hcache rte.relid = some h →
      should_optimize_query g (some h) = true →
      (timescaledb_set_rel_pathlist g loaded hcache root rel rti rte).new_pathlist
        = rewrite_pathlist g h rel) := by
  constructor
  · intro hrr
    rcases set_rel_pathlist_newpl_cases g loaded hcache root rel rti rte with
      heq | ⟨h, _, _, hzero, _⟩
    · exact heq
    · exact absurd hzero hrr
  · intro h hrr hload hdum hval hpar hht hopt
    unfold timescaledb_set_rel_pathlist
    rw [if_neg (by simp [hload, hdum, hval])]
    rw [if_neg (by simp [hpar])]
    simp only [hht]
    rw [if_neg (by simp [hopt])]
    simp [hpar, hrr]

/-- Witness for the amended C4 at a concrete input: with no write
target and the same relation otherwise, the path list does go through
the wrap loop. -/
theorem claim_C4_witness :
    (timescaledb_set_rel_pathlist gC4 true hcacheC4
        { parse := { onConflict := none, resultRelation := 0 }
        , append_rel_list := []
        , simple_rel_array := [] } relC4 1 rteC4).new_pathlist
      = rewrite_pathlist gC4 { relid := 42 } relC4 :=
  (claim_C4_wrap_requires_no_write_target gC4 true hcacheC4
    { parse := { onConflict := none, resultRelation := 0 }
    , append_rel_list := []
    , simple_rel_array := [] } relC4 1 rteC4).2
    { relid := 42 } rfl rfl rfl rfl (by decide) (by decide) (by decide)

/-- C7: with optimization restricted to hypertables, visiting an
append child of a hypertable applies the sort transform, by walking the
append relation list, to exactly the children whose parent OID is the
visited hypertable; in particular every sibling under the same parent
receives the transform, not only the first-seen child. -/
theorem claim_C7_sort_transform_reaches_all_siblings (g : Gucs)
    (hcache : Cache) (root : PlannerInfo) (rel : RelOptInfo) (rti : Nat)
    (rte : RangeTblEntry)
    (hdis : g.guc_disable_optimizations = false)
    (hnon : g.guc_optimize_non_hypertables = false)
    (hdum : rel.is_dummy = false)
    (hval : OidIsValid rte.relid = true)
    (hchild : is_append_child rel rte = true)
    (hht : (hypertable_cache_get_entry hcache rte.relid).isSome = true) :
    (timescaledb_set_rel_pathlist g true hcache root rel rti rte).sort_transform_applied
      = (root.append_rel_list.filter fun appinfo =>
          appinfo.parent_reloid == rte.relid).map
        (fun appinfo => appinfo.child_relid) ∧
    ∀ appinfo ∈ root.append_rel_list, appinfo.parent_reloid = rte.relid →
      appinfo.child_relid ∈
        (timescaledb_set_rel_pathlist g true hcache root rel rti rte).sort_transform_applied := by
  have hmain :
      (timescaledb_set_rel_pathlist g true hcache root rel rti rte).sort_transform_applied
        = (root.append_rel_list.filter fun appinfo =>
            appinfo.parent_reloid == rte.relid).map
          (fun appinfo => appinfo.child_relid) := by
    obtain ⟨h, hh⟩ := Option.isSome_iff_exists.mp hht
    unfold timescaledb_set_rel_pathlist
    rw [if_neg (by simp [hdum, hval])]
    rw [if_neg (by simp [hchild])]
    simp only [hh]
    rw [if_neg (by simp [should_optimize_query, hdis, hh])]
    simp [hnon, hchild]
  refine ⟨hmain, ?_⟩
  intro appinfo hmem hpar
  rw [hmain]
  exact List.mem_map_of_mem _ (List.mem_filter.mpr ⟨hmem, by simp [hpar]⟩)

/-- Example configuration for the C7 witness: optimizations enabled and
restricted to hypertables. -/
def gC7 : Gucs :=
  { guc_disable_optimizations := false
  , guc_optimize_non_hypertables := false
  , guc_constraint_aware_append := true
  , constraint_exclusion := ConstraintExclusion.partition }

/-- Example relation for the C7 witness: an append child member. -/
def relC7 : RelOptInfo :=
  { reloptkind := RelOptKind.otherMemberRel
  , rtekind := RteKind.relation
  , is_dummy := false
  , baserestrictinfo := []
  , pathlist := [] }

/-- Example range table entry for the C7 witness: a child entry of
hypertable 42. -/
def rteC7 : RangeTblEntry :=
  { relid := 42, inh := false, relkind := RelKindTag.relation }

/-- Example planner state for the C7 witness: three sibling partitions
of hypertable 42 at simple_rel_array indices 1, 2 and 3. -/
def rootC7 : PlannerInfo :=
  { parse := { onConflict := none, resultRelation := 0 }
  , append_rel_list :=
      [ { parent_reloid := 42, child_relid := 1 }
      , { parent_reloid := 42, child_relid := 2 }
      , { parent_reloid := 42, child_relid := 3 } ]
  , simple_rel_array := [] }

/-- Witness for C7 at a concrete input: with three sibling partitions
under one parent, the sort transform is applied to all three siblings,
not only the first one visited. -/
theorem claim_C7_witness :
    1 ∈ (timescaledb_set_rel_pathlist gC7 true [(42, { relid := 42 })]
          rootC7 relC7 1 rteC7).sort_transform_applied ∧
    2 ∈ (timescaledb_set_rel_pathlist gC7 true [(42, { relid := 42 })]
          rootC7 relC7 1 rteC7).sort_transform_applied ∧
    3 ∈ (timescaledb_set_rel_pathlist gC7 true [(42, { relid := 42 })]
          rootC7 relC7 1 rteC7).sort_transform_applied :=
  ⟨(claim_C7_sort_transform_reaches_all_siblings gC7 [(42, { relid := 42 })]
      rootC7 relC7 1 rteC7 rfl rfl rfl (by decide) (by decide) (by decide)).2
    { parent_reloid := 42, child_relid := 1 } (by decide) rfl,
   (claim_C7_sort_transform_reaches_all_siblings gC7 [(42, { relid := 42 })]
      rootC7 relC7 1 rteC7 rfl rfl rfl (by decide) (by decide) (by decide)).2
    { parent_reloid := 42, child_relid := 2 } (by decide) rfl,
   (claim_C7_sort_transform_reaches_all_siblings gC7 [(42, { relid := 42 })]
      rootC7 relC7 1 rteC7 rfl rfl rfl (by decide) (by decide) (by decide)).2
    { parent_reloid := 42, child_relid := 3 } (by decide) rfl⟩

end Timescale
